import Mathlib

/-!
Verification of the solar-flux raster renderer and proxy route.

The renderer lives in `src/components/SolarFluxMap.tsx` (`fetchAndRenderTiff`
and its inner `getColor`), the proxy in `src/app/api/getFluxData/route.ts`
(`GET`).  JavaScript numbers are modelled by `JSNum`: an exact rational
together with the three IEEE special values `NaN`, `+Infinity`, `-Infinity`,
with the JavaScript semantics for arithmetic, comparison, `Math.min`,
`Math.max` and `Math.round`.  Rasters are row-major lists of samples; the
produced `ImageData` surface is a row-major list of RGBA quadruples of
`Uint8ClampedArray` entries.
-/

/-- A JavaScript number: an exact rational, or one of the special values. -/
inductive JSNum : Type where
  | num (q : ℚ)
  | nan
  | inf
  | ninf
deriving DecidableEq, Repr

namespace JSNum

/-- JavaScript subtraction `a - b`. -/
def sub : JSNum → JSNum → JSNum
  | nan, _ => nan
  | _, nan => nan
  | num a, num b => num (a - b)
  | num _, inf => ninf
  | num _, ninf => inf
  | inf, num _ => inf
  | inf, inf => nan
  | inf, ninf => inf
  | ninf, num _ => ninf
  | ninf, inf => ninf
  | ninf, ninf => nan

/-- JavaScript multiplication `a * b` (`Infinity * 0` is `NaN`). -/
def mul : JSNum → JSNum → JSNum
  | nan, _ => nan
  | _, nan => nan
  | num a, num b => num (a * b)
  | num a, inf => if 0 < a then inf else if a < 0 then ninf else nan
  | num a, ninf => if 0 < a then ninf else if a < 0 then inf else nan
  | inf, num b => if 0 < b then inf else if b < 0 then ninf else nan
  | ninf, num b => if 0 < b then ninf else if b < 0 then inf else nan
  | inf, inf => inf
  | inf, ninf => ninf
  | ninf, inf => ninf
  | ninf, ninf => inf

/-- JavaScript division `a / b` (`0 / 0` is `NaN`; a nonzero rational divided
by zero gives a signed infinity, the divisor zero being `+0` here). -/
def div : JSNum → JSNum → JSNum
  | nan, _ => nan
  | _, nan => nan
  | num a, num b =>
      if b = 0 then (if 0 < a then inf else if a < 0 then ninf else nan)
      else num (a / b)
  | num _, inf => num 0
  | num _, ninf => num 0
  | inf, num b => if b < 0 then ninf else inf
  | ninf, num b => if b < 0 then inf else ninf
  | inf, inf => nan
  | inf, ninf => nan
  | ninf, inf => nan
  | ninf, ninf => nan

/-- JavaScript `<` (any comparison with `NaN` is false). -/
def lt : JSNum → JSNum → Bool
  | nan, _ => false
  | _, nan => false
  | num a, num b => decide (a < b)
  | num _, inf => true
  | num _, ninf => false
  | inf, _ => false
  | ninf, ninf => false
  | ninf, _ => true

/-- JavaScript `<=` (any comparison with `NaN` is false). -/
def le : JSNum → JSNum → Bool
  | nan, _ => false
  | _, nan => false
  | num a, num b => decide (a ≤ b)
  | num _, inf => true
  | num _, ninf => false
  | inf, inf => true
  | inf, _ => false
  | ninf, _ => true

/-- JavaScript `Math.min` (`NaN` if an argument is `NaN`). -/
def jsmin : JSNum → JSNum → JSNum
  | nan, _ => nan
  | _, nan => nan
  | num a, num b => num (Min.min a b)
  | num a, inf => num a
  | num _, ninf => ninf
  | inf, b => b
  | ninf, _ => ninf

/-- JavaScript `Math.max` (`NaN` if an argument is `NaN`). -/
def jsmax : JSNum → JSNum → JSNum
  | nan, _ => nan
  | _, nan => nan
  | num a, num b => num (Max.max a b)
  | num _, inf => inf
  | num a, ninf => num a
  | inf, _ => inf
  | ninf, b => b

/-- JavaScript `Math.round`: round half towards `+Infinity`, i.e.
`floor(x + 1/2)` on finite values. -/
def round : JSNum → JSNum
  | nan => nan
  | inf => inf
  | ninf => ninf
  | num q => num ((⌊q + 1/2⌋ : ℤ) : ℚ)

end JSNum

/-- Conversion of a stored channel value to a `Uint8ClampedArray` entry
(ECMAScript `ToUint8Clamp`): `NaN` becomes `0`, values are clamped to
`[0, 255]` and rounded half to even. -/
def toUint8Clamp : JSNum → ℕ :=
  fun x =>
    match x with
    | JSNum.nan => 0
    | JSNum.inf => 255
    | JSNum.ninf => 0
    | JSNum.num q =>
        if q ≤ 0 then 0
        else if 255 ≤ q then 255
        else
          (if (q - (⌊q⌋ : ℚ)) > 1/2 then ⌊q⌋ + 1
           else if (q - (⌊q⌋ : ℚ)) < 1/2 then ⌊q⌋
           else if ⌊q⌋ % 2 = 0 then ⌊q⌋ else ⌊q⌋ + 1).toNat

/-- The inner `getColor` of `fetchAndRenderTiff`
(`src/components/SolarFluxMap.tsx`): `min` and `max` are the captured range
variables; returns the `[r, g, b]` triple. -/
def getColor (mn mx value : JSNum) : JSNum × JSNum × JSNum :=
  if value.le (JSNum.num 0) then (JSNum.num 0, JSNum.num 0, JSNum.num 0)
  else
    let normalized := (value.sub mn).div (mx.sub mn)
    if normalized.lt (JSNum.num (1/2)) then
      let t := normalized.mul (JSNum.num 2)
      (((JSNum.num 255).mul t).round,
       ((JSNum.num 255).mul t).round,
       ((JSNum.num 255).mul ((JSNum.num 1).sub t)).round)
    else
      let t := (normalized.sub (JSNum.num (1/2))).mul (JSNum.num 2)
      (JSNum.num 255,
       ((JSNum.num 255).mul ((JSNum.num 1).sub t)).round,
       JSNum.num 0)

/-- One step of the min/max scan of `fetchAndRenderTiff`: samples with
`value > 0` are folded into the running `(min, max)` pair, others are
ignored. -/
def rangeStep (acc : JSNum × JSNum) (value : JSNum) : JSNum × JSNum :=
  if (JSNum.num 0).lt value then
    (JSNum.jsmin acc.1 value, JSNum.jsmax acc.2 value)
  else acc

/-- The min/max scan of `fetchAndRenderTiff`: `min` starts at `Infinity`,
`max` at `-Infinity`. -/
def computeRange (raster : List JSNum) : JSNum × JSNum :=
  raster.foldl rangeStep (JSNum.inf, JSNum.ninf)

/-- The alpha channel written by the pixel loop:
`value > 0 ? 255 : 0`. -/
def sampleAlpha (value : JSNum) : ℕ :=
  if (JSNum.num 0).lt value then 255 else 0

/-- The pixel loop of `fetchAndRenderTiff`: each sample is mapped through
`getColor` (with the scanned range) and written, with its alpha, into the
`ImageData` surface at the same row-major index. -/
def renderSurface (raster : List JSNum) : List (ℕ × ℕ × ℕ × ℕ) :=
  let range := computeRange raster
  raster.map (fun value =>
    let c := getColor range.1 range.2 value
    (toUint8Clamp c.1, toUint8Clamp c.2.1, toUint8Clamp c.2.2,
     sampleAlpha value))

/-- Response of the upstream `geoTiff:get` endpoint as seen by the route:
a status code, the binary body, and the error text read on failure. -/
structure UpstreamResponse : Type where
  status : ℕ
  body : List ℕ
  errorText : String
deriving DecidableEq, Repr

/-- `Response.ok` of the fetch API: status in the range 200–299. -/
def UpstreamResponse.ok (r : UpstreamResponse) : Bool :=
  decide (200 ≤ r.status) && decide (r.status ≤ 299)

/-- Body of a response produced by the route: either a JSON error object
`{"error": msg}` or raw bytes. -/
inductive RouteBody : Type where
  | jsonError (msg : String)
  | bytes (data : List ℕ)
deriving DecidableEq, Repr

/-- A response produced by the route handler, with the two headers the
source sets explicitly on the binary path. -/
structure RouteResponse : Type where
  status : ℕ
  body : RouteBody
  contentType : Option String
  contentDisposition : Option String
deriving DecidableEq, Repr

/-- `NextResponse.json({error: msg}, {status})`. -/
def jsonResponse (msg : String) (status : ℕ) : RouteResponse :=
  ⟨status, RouteBody.jsonError msg, some "application/json", none⟩

/-- JavaScript falsiness of `searchParams.get(..)` / `process.env[..]`:
absent (`null`/`undefined`) or the empty string. -/
def isFalsy : Option String → Bool
  | none => true
  | some s => decide (s = "")

/-- The `GET` handler of `src/app/api/getFluxData/route.ts`.  `id` is the
`id` query parameter, `apiKey` the configured credential, `upstream` the
upstream endpoint as a function of the identifier and the key. -/
def getFluxData (id : Option String) (apiKey : Option String)
    (upstream : String → String → UpstreamResponse) : RouteResponse :=
  if isFalsy id then jsonResponse "Missing id parameter" 400
  else if isFalsy apiKey then jsonResponse "API key not configured" 500
  else
    let resp := upstream (id.getD "") (apiKey.getD "")
    if resp.ok then
      ⟨200, RouteBody.bytes resp.body, some "image/tiff",
       some "attachment; filename=\"solar-flux-data.tiff\""⟩
    else
      jsonResponse ("Failed to fetch TIFF: " ++ toString resp.status) resp.status

/-- The JSON error message of a route response, `none` on the binary path. -/
def jsonBodyOf (r : RouteResponse) : Option String :=
  match r.body with
  | RouteBody.jsonError m => some m
  | RouteBody.bytes _ => none

/-- JavaScript `Math.round` on an exact rational. -/
def jsRound (q : ℚ) : ℤ := ⌊q + 1/2⌋

/-- Modelled from the spec: the two-segment colour ramp of §4.2 step 5 in
exact rational arithmetic (`normalized = (v - min)/(max - min)`; blue→yellow
below `1/2`, yellow→red above), to be compared with the source `getColor`. -/
def specColorMap (mn mx v : ℚ) : ℤ × ℤ × ℤ :=
  let normalized := (v - mn) / (mx - mn)
  if normalized < 1/2 then
    let t := normalized * 2
    (jsRound (255 * t), jsRound (255 * t), jsRound (255 * (1 - t)))
  else
    let t := (normalized - 1/2) * 2
    (255, jsRound (255 * (1 - t)), 0)

/-- A `specColorMap` triple as the corresponding finite `getColor` output. -/
def intColor (c : ℤ × ℤ × ℤ) : JSNum × JSNum × JSNum :=
  (JSNum.num (c.1 : ℚ), JSNum.num (c.2.1 : ℚ), JSNum.num (c.2.2 : ℚ))

/-- The red channel of a `getColor` triple, as a rational (`0` for a
non-finite channel, which does not occur in the range-respecting cases). -/
def redOf (c : JSNum × JSNum × JSNum) : ℚ :=
  match c.1 with
  | JSNum.num q => q
  | _ => 0

/-- The blue channel of a `getColor` triple, as a rational. -/
def blueOf (c : JSNum × JSNum × JSNum) : ℚ :=
  match c.2.2 with
  | JSNum.num q => q
  | _ => 0

/-- The positive samples of a rational raster, in raster order. -/
def posSamples (r : List ℚ) : List ℚ :=
  r.filter (fun q => decide (0 < q))

@[simp] lemma JSNum.sub_num (a b : ℚ) : JSNum.sub (JSNum.num a) (JSNum.num b) = JSNum.num (a - b) := rfl

@[simp] lemma JSNum.mul_num (a b : ℚ) : JSNum.mul (JSNum.num a) (JSNum.num b) = JSNum.num (a * b) := rfl

@[simp] lemma JSNum.lt_num (a b : ℚ) : JSNum.lt (JSNum.num a) (JSNum.num b) = decide (a < b) := rfl

@[simp] lemma JSNum.le_num (a b : ℚ) : JSNum.le (JSNum.num a) (JSNum.num b) = decide (a ≤ b) := rfl

@[simp] lemma JSNum.round_num (q : ℚ) : JSNum.round (JSNum.num q) = JSNum.num ((⌊q + 1/2⌋ : ℤ) : ℚ) := rfl

lemma JSNum.div_num (a b : ℚ) (h : b ≠ 0) :
    JSNum.div (JSNum.num a) (JSNum.num b) = JSNum.num (a / b) := by
  simp [JSNum.div, h]

/-- A sample that passes the JavaScript test `value <= 0` fails the test
`value > 0`. -/
lemma lt_zero_of_le_zero (v : JSNum) (h : v.le (JSNum.num 0) = true) :
    (JSNum.num 0).lt v = false := by
  cases v with
  | num q =>
      simp only [JSNum.le_num, decide_eq_true_eq] at h
      simp [JSNum.lt_num, h.not_lt]
  | nan => rfl
  | inf => simp [JSNum.le] at h
  | ninf => rfl

/-- On a positive sample with a proper range, the source `getColor` computes
exactly the two-segment ramp of the spec in exact arithmetic. -/
lemma getColor_num_pos (mn mx v : ℚ) (hlt : mn < mx) (hv : 0 < v) :
    getColor (JSNum.num mn) (JSNum.num mx) (JSNum.num v) =
      intColor (specColorMap mn mx v) := by
  have h0 : ¬ v ≤ (0 : ℚ) := not_le.mpr hv
  have hd : mx - mn ≠ 0 := sub_ne_zero.mpr (ne_of_gt hlt)
  by_cases hn : (v - mn) / (mx - mn) < (2 : ℚ)⁻¹
  · simp [getColor, specColorMap, intColor, jsRound, JSNum.div_num _ _ hd, h0, hn]
  · simp [getColor, specColorMap, intColor, jsRound, JSNum.div_num _ _ hd, h0, hn]

/-- C1 (counterexample): on the raster all of whose samples are `<= 0`,
`fetchAndRenderTiff` does not fail: the pixel loop runs to completion and
produces a (fully transparent) surface, so no explicit `DecodeError` check
short-circuits before the colour-mapping step. -/
theorem render_all_nonpositive_succeeds :
    renderSurface [JSNum.num (-1)] = [(0, 0, 0, 0)] := by
  norm_num [renderSurface, computeRange, rangeStep, getColor, toUint8Clamp, sampleAlpha,
    JSNum.le, JSNum.lt, JSNum.sub, JSNum.div, JSNum.mul, JSNum.round, JSNum.jsmin, JSNum.jsmax]

/-- C1 (amended): for every raster whose samples all satisfy the JavaScript
test `value <= 0`, the render completes and every produced pixel is the
fully transparent `(0, 0, 0, 0)`; no NaN-derived colours appear, because
every such sample takes the early `value <= 0` branch of `getColor`.  No
`DecodeError` is raised: the source has no such check. -/
theorem render_all_nonpositive_transparent (r : List JSNum)
    (h : ∀ v ∈ r, v.le (JSNum.num 0) = true)
    (i : Fin (renderSurface r).length) :
    (renderSurface r).get i = (0, 0, 0, 0) := by
  rcases i with ⟨i, hi⟩
  have hir : i < r.length := by simpa [renderSurface] using hi
  simp only [renderSurface, List.get_eq_getElem, List.getElem_map]
  have hv : r[i].le (JSNum.num 0) = true := h _ (List.getElem_mem hir)
  have hlt : (JSNum.num 0).lt r[i] = false := lt_zero_of_le_zero _ hv
  simp [getColor, hv, sampleAlpha, hlt, toUint8Clamp]

theorem render_all_nonpositive_transparent_witness :
    (∀ v ∈ [JSNum.num (-1), JSNum.num 0], v.le (JSNum.num 0) = true) ∧
      (renderSurface [JSNum.num (-1), JSNum.num 0]).get
        ⟨0, by norm_num [renderSurface]⟩ = (0, 0, 0, 0) :=
  ⟨by decide, render_all_nonpositive_transparent _ (by decide) _⟩

/-- C2: for every proper range `min < max` and every sample `v > 0`, the
source `getColor` computes `normalized = (v - min) / (max - min)` and applies
exactly the two-segment ramp of the spec (`specColorMap`), and the pixel loop
assigns alpha `255` to such a sample. -/
theorem getColor_matches_spec_ramp (mn mx v : ℚ) (hlt : mn < mx) (hv : 0 < v) :
    getColor (JSNum.num mn) (JSNum.num mx) (JSNum.num v) =
      intColor (specColorMap mn mx v) ∧
    sampleAlpha (JSNum.num v) = 255 := by
  refine ⟨getColor_num_pos mn mx v hlt hv, ?_⟩
  simp [sampleAlpha, hv]

theorem getColor_matches_spec_ramp_witness :
    (10 : ℚ) < 30 ∧ (0 : ℚ) < 15 ∧
      (getColor (JSNum.num 10) (JSNum.num 30) (JSNum.num 15) =
        intColor (specColorMap 10 30 15) ∧
       sampleAlpha (JSNum.num 15) = 255) :=
  ⟨by norm_num, by norm_num, getColor_matches_spec_ramp 10 30 15 (by norm_num) (by norm_num)⟩

/-- C5: on the 3×1 raster `[-1, 20, 20]` (so `min == max == 20` and the
normalization divides `0/0`), pixel 0 is `(0, 0, 0, 0)` and pixels 1 and 2
carry identical RGBA values (concretely `(255, 0, 0, 255)`: the NaN
normalization falls into the yellow→red branch, and the NaN green channel
clamps to 0 in the `Uint8ClampedArray`). -/
theorem render_degenerate_range_concrete :
    ∃ p : ℕ × ℕ × ℕ × ℕ,
      renderSurface [JSNum.num (-1), JSNum.num 20, JSNum.num 20] =
        [(0, 0, 0, 0), p, p] := by
  refine ⟨(255, 0, 0, 255), ?_⟩
  norm_num [renderSurface, computeRange, rangeStep, getColor, toUint8Clamp, sampleAlpha,
    JSNum.le, JSNum.lt, JSNum.sub, JSNum.div, JSNum.mul, JSNum.round, JSNum.jsmin, JSNum.jsmax]

/-- The scan step keeps the running `min` either at its `Infinity` sentinel
or at a positive finite value. -/
lemma rangeStep_fst_invariant (acc : JSNum × JSNum) (v : JSNum)
    (h : acc.1 = JSNum.inf ∨ ∃ q : ℚ, 0 < q ∧ acc.1 = JSNum.num q) :
    (rangeStep acc v).1 = JSNum.inf ∨
      ∃ q : ℚ, 0 < q ∧ (rangeStep acc v).1 = JSNum.num q := by
  by_cases hv : (JSNum.num 0).lt v = true
  · simp only [rangeStep, hv, if_true]
    cases v with
    | num q =>
        have hq : (0 : ℚ) < q := by simpa using hv
        rcases h with h | ⟨p, hp, h⟩
        · exact Or.inr ⟨q, hq, by simp [h, JSNum.jsmin]⟩
        · exact Or.inr ⟨Min.min p q, lt_min hp hq, by simp [h, JSNum.jsmin]⟩
    | nan => simp [JSNum.lt] at hv
    | inf =>
        rcases h with h | ⟨p, hp, h⟩
        · exact Or.inl (by simp [h, JSNum.jsmin])
        · exact Or.inr ⟨p, hp, by simp [h, JSNum.jsmin]⟩
    | ninf => simp [JSNum.lt] at hv
  · simpa [rangeStep, hv] using h

/-- If the scanned `min` ends up finite, it is positive (only samples with
`value > 0` are folded in). -/
lemma computeRange_fst_pos (r : List JSNum) (mn : ℚ)
    (h : (computeRange r).1 = JSNum.num mn) : 0 < mn := by
  have aux : ∀ (l : List JSNum) (acc : JSNum × JSNum),
      (acc.1 = JSNum.inf ∨ ∃ q : ℚ, 0 < q ∧ acc.1 = JSNum.num q) →
      ((l.foldl rangeStep acc).1 = JSNum.inf ∨
        ∃ q : ℚ, 0 < q ∧ (l.foldl rangeStep acc).1 = JSNum.num q) := by
    intro l
    induction l with
    | nil => intro acc hacc; exact hacc
    | cons v rest ih => intro acc hacc; exact ih _ (rangeStep_fst_invariant acc v hacc)
  rcases aux r (JSNum.inf, JSNum.ninf) (Or.inl rfl) with h1 | ⟨q, hq, h1⟩
  · rw [computeRange] at h; rw [h1] at h; exact absurd h (by simp)
  · rw [computeRange] at h; rw [h1] at h
    obtain rfl : q = mn := by simpa using h
    exact hq

/-- C3: for a raster whose scan produced a finite range with `min < max`,
`getColor` sends the `max` sample to pure red `(255, 0, 0)`, the `min`
sample to pure blue `(0, 0, 255)`, and the midpoint sample `(min + max)/2`
to pure yellow `(255, 255, 0)` (exactly, hence within the claimed ±1). -/
theorem range_endpoint_colors (r : List JSNum) (mn mx : ℚ)
    (h : computeRange r = (JSNum.num mn, JSNum.num mx)) (hlt : mn < mx) :
    getColor (JSNum.num mn) (JSNum.num mx) (JSNum.num mx) =
      (JSNum.num 255, JSNum.num 0, JSNum.num 0) ∧
    getColor (JSNum.num mn) (JSNum.num mx) (JSNum.num mn) =
      (JSNum.num 0, JSNum.num 0, JSNum.num 255) ∧
    getColor (JSNum.num mn) (JSNum.num mx) (JSNum.num ((mn + mx) / 2)) =
      (JSNum.num 255, JSNum.num 255, JSNum.num 0) := by
  have hmn : 0 < mn := computeRange_fst_pos r mn (by rw [h])
  have hmx : 0 < mx := hmn.trans hlt
  have hmid : 0 < (mn + mx) / 2 := by linarith
  have hd : mx - mn ≠ 0 := sub_ne_zero.mpr (ne_of_gt hlt)
  have e1 : (mx - mn) / (mx - mn) = 1 := div_self hd
  have e2 : (mn - mn) / (mx - mn) = 0 := by rw [sub_self, zero_div]
  have e3 : ((mn + mx) / 2 - mn) / (mx - mn) = 1 / 2 := by
    rw [show (mn + mx) / 2 - mn = (mx - mn) / 2 by ring]
    rw [div_div, mul_comm, ← div_div, e1]
  refine ⟨?_, ?_, ?_⟩
  · rw [getColor_num_pos mn mx mx hlt hmx]
    norm_num [specColorMap, intColor, jsRound, e1]
  · rw [getColor_num_pos mn mx mn hlt hmn]
    norm_num [specColorMap, intColor, jsRound, e2]
  · rw [getColor_num_pos mn mx ((mn + mx) / 2) hlt hmid]
    norm_num [specColorMap, intColor, jsRound, e3]

theorem range_endpoint_colors_witness :
    computeRange [JSNum.num 10, JSNum.num 30] = (JSNum.num 10, JSNum.num 30) ∧
    (10 : ℚ) < 30 ∧
    (getColor (JSNum.num 10) (JSNum.num 30) (JSNum.num 30) =
       (JSNum.num 255, JSNum.num 0, JSNum.num 0) ∧
     getColor (JSNum.num 10) (JSNum.num 30) (JSNum.num 10) =
       (JSNum.num 0, JSNum.num 0, JSNum.num 255) ∧
     getColor (JSNum.num 10) (JSNum.num 30) (JSNum.num ((10 + 30) / 2)) =
       (JSNum.num 255, JSNum.num 255, JSNum.num 0)) :=
  ⟨by norm_num [computeRange, rangeStep, JSNum.lt, JSNum.jsmin, JSNum.jsmax], by norm_num,
   range_endpoint_colors [JSNum.num 10, JSNum.num 30] 10 30
     (by norm_num [computeRange, rangeStep, JSNum.lt, JSNum.jsmin, JSNum.jsmax]) (by norm_num)⟩

/-- C4: in the produced surface of a raster with at least one positive
sample, every pixel whose finite source sample is `<= 0` has alpha exactly
`0`, and every pixel whose source sample is `> 0` has alpha exactly `255`. -/
theorem renderSurface_alpha (r : List JSNum)
    (hx : ∃ v ∈ r, (JSNum.num 0).lt v = true)
    (i : Fin r.length) (q : ℚ) (hq : r.get i = JSNum.num q) :
    (q ≤ 0 →
      ((renderSurface r).get ⟨i.val, by simpa [renderSurface] using i.isLt⟩).2.2.2 = 0) ∧
    (0 < q →
      ((renderSurface r).get ⟨i.val, by simpa [renderSurface] using i.isLt⟩).2.2.2 = 255) := by
  rcases i with ⟨i, hi⟩
  simp only [List.get_eq_getElem] at hq ⊢
  simp only [renderSurface, List.getElem_map]
  constructor
  · intro h
    simp [sampleAlpha, hq, h.not_lt]
  · intro h
    simp [sampleAlpha, hq, h]

theorem renderSurface_alpha_witness :
    (∃ v ∈ [JSNum.num 1, JSNum.num (-2)], (JSNum.num 0).lt v = true) ∧
    (((-2 : ℚ) ≤ 0 →
      ((renderSurface [JSNum.num 1, JSNum.num (-2)]).get
        ⟨1, by norm_num [renderSurface]⟩).2.2.2 = 0) ∧
     ((0 : ℚ) < -2 →
      ((renderSurface [JSNum.num 1, JSNum.num (-2)]).get
        ⟨1, by norm_num [renderSurface]⟩).2.2.2 = 255)) :=
  ⟨⟨JSNum.num 1, by simp, by norm_num [JSNum.lt]⟩,
   renderSurface_alpha [JSNum.num 1, JSNum.num (-2)]
     ⟨JSNum.num 1, by simp, by norm_num [JSNum.lt]⟩ ⟨1, by norm_num⟩ (-2) rfl⟩

/-- `Response.ok` unfolded to the 2xx status condition. -/
lemma upstream_ok_iff (r : UpstreamResponse) :
    r.ok = true ↔ 200 ≤ r.status ∧ r.status ≤ 299 := by
  simp [UpstreamResponse.ok]

/-- C6 (counterexample): with the empty identifier and no configured
credential, the route answers `400 Missing id parameter`, not the claimed
`500 ConfigurationError` — the missing-id check runs first and the empty
string is falsy in JavaScript. -/
theorem route_empty_id_counterexample :
    (getFluxData (some "") none (fun _ _ => ⟨200, [], ""⟩)).status = 400 ∧
    ¬ (getFluxData (some "") none (fun _ _ => ⟨200, [], ""⟩)).status = 500 := by
  constructor <;> simp [getFluxData, isFalsy, jsonResponse]

/-- C6 (amended): the empty identifier always yields the 400 missing-id
error (whatever the credential state), and for every *non-empty* identifier
a missing credential yields the 500 configuration error. -/
theorem route_missing_id_and_key (k : Option String)
    (u : String → String → UpstreamResponse) (s : String) (hs : s ≠ "") :
    getFluxData (some "") k u = jsonResponse "Missing id parameter" 400 ∧
    getFluxData (some s) none u = jsonResponse "API key not configured" 500 := by
  constructor
  · simp [getFluxData, isFalsy]
  · simp [getFluxData, isFalsy, hs]

theorem route_missing_id_and_key_witness :
    "abc" ≠ "" ∧
    (getFluxData (some "") none (fun _ _ => ⟨204, [7], "x"⟩) =
       jsonResponse "Missing id parameter" 400 ∧
     getFluxData (some "abc") none (fun _ _ => ⟨204, [7], "x"⟩) =
       jsonResponse "API key not configured" 500) :=
  ⟨by decide,
   route_missing_id_and_key none (fun _ _ => ⟨204, [7], "x"⟩) "abc" (by decide)⟩

/-- C8: with an id and a credential present, a 2xx upstream answer is
relayed byte-for-byte with `Content-Type: image/tiff` and the attachment
`Content-Disposition`, and a non-2xx upstream status is propagated as the
status of the route response itself. -/
theorem route_passthrough (id apiKey : Option String)
    (u : String → String → UpstreamResponse)
    (hid : isFalsy id = false) (hk : isFalsy apiKey = false) :
    (200 ≤ (u (id.getD "") (apiKey.getD "")).status ∧
        (u (id.getD "") (apiKey.getD "")).status ≤ 299 →
      getFluxData id apiKey u =
        ⟨200, RouteBody.bytes (u (id.getD "") (apiKey.getD "")).body, some "image/tiff",
         some "attachment; filename=\"solar-flux-data.tiff\""⟩) ∧
    (¬ (200 ≤ (u (id.getD "") (apiKey.getD "")).status ∧
        (u (id.getD "") (apiKey.getD "")).status ≤ 299) →
      (getFluxData id apiKey u).status = (u (id.getD "") (apiKey.getD "")).status ∧
      ∃ m, (getFluxData id apiKey u).body = RouteBody.jsonError m) := by
  constructor
  · intro h
    have hok : (u (id.getD "") (apiKey.getD "")).ok = true := (upstream_ok_iff _).mpr h
    simp [getFluxData, hid, hk, hok]
  · intro h
    have hok : (u (id.getD "") (apiKey.getD "")).ok = false := by
      rw [← Bool.not_eq_true, upstream_ok_iff]
      exact h
    simp [getFluxData, hid, hk, hok, jsonResponse]

theorem route_passthrough_witness :
    isFalsy (some "abc") = false ∧ isFalsy (some "key") = false ∧
    ((200 ≤ ((fun (_ _ : String) =>
          (⟨200, [1, 2, 3], ""⟩ : UpstreamResponse)) "abc" "key").status ∧
      ((fun (_ _ : String) => (⟨200, [1, 2, 3], ""⟩ : UpstreamResponse)) "abc" "key").status ≤ 299 →
      getFluxData (some "abc") (some "key")
          (fun _ _ => ⟨200, [1, 2, 3], ""⟩) =
        ⟨200, RouteBody.bytes [1, 2, 3], some "image/tiff",
         some "attachment; filename=\"solar-flux-data.tiff\""⟩) ∧
     (¬ (200 ≤ ((fun (_ _ : String) =>
          (⟨200, [1, 2, 3], ""⟩ : UpstreamResponse)) "abc" "key").status ∧
        ((fun (_ _ : String) => (⟨200, [1, 2, 3], ""⟩ : UpstreamResponse)) "abc" "key").status ≤ 299) →
      (getFluxData (some "abc") (some "key") (fun _ _ => ⟨200, [1, 2, 3], ""⟩)).status =
        ((fun (_ _ : String) => (⟨200, [1, 2, 3], ""⟩ : UpstreamResponse)) "abc" "key").status ∧
      ∃ m, (getFluxData (some "abc") (some "key")
          (fun _ _ => ⟨200, [1, 2, 3], ""⟩)).body = RouteBody.jsonError m)) :=
  ⟨by decide, by decide,
   route_passthrough (some "abc") (some "key") (fun _ _ => ⟨200, [1, 2, 3], ""⟩)
     (by decide) (by decide)⟩

/-- C9: every JSON error body the route emits is drawn from a fixed set of
messages mentioning at most the upstream numeric status, and the emitted
JSON body is unchanged when the configured credential or the upstream
response body/error text changes (with the upstream status held fixed):
no response leaks the credential or the raw upstream error body. -/
theorem route_error_bodies_no_secret (id k1 k2 : Option String)
    (u1 u2 : String → String → UpstreamResponse) (m : String)
    (h1 : isFalsy k1 = false) (h2 : isFalsy k2 = false)
    (hs : (u1 (id.getD "") (k1.getD "")).status = (u2 (id.getD "") (k2.getD "")).status)
    (hm : jsonBodyOf (getFluxData id k1 u1) = some m) :
    (m = "Missing id parameter" ∨ m = "API key not configured" ∨
      m = "Failed to fetch TIFF: " ++ toString (u1 (id.getD "") (k1.getD "")).status) ∧
    jsonBodyOf (getFluxData id k1 u1) = jsonBodyOf (getFluxData id k2 u2) := by
  have hok : (u2 (id.getD "") (k2.getD "")).ok = (u1 (id.getD "") (k1.getD "")).ok := by
    simp [UpstreamResponse.ok, hs]
  by_cases hid : isFalsy id = true
  · constructor
    · have hm2 := hm
      simp [getFluxData, hid, jsonResponse, jsonBodyOf] at hm2
      exact Or.inl hm2.symm
    · simp [getFluxData, hid]
  · replace hid : isFalsy id = false := by
      cases hif : isFalsy id with
      | true => exact absurd hif hid
      | false => rfl
    by_cases hu : (u1 (id.getD "") (k1.getD "")).ok = true
    · have hm2 := hm
      simp [getFluxData, hid, h1, hu, jsonBodyOf] at hm2
    · have hu1 : (u1 (id.getD "") (k1.getD "")).ok = false := by
        cases hb : (u1 (id.getD "") (k1.getD "")).ok with
        | true => exact absurd hb hu
        | false => rfl
      have hu2 : (u2 (id.getD "") (k2.getD "")).ok = false := by rw [hok, hu1]
      constructor
      · have hm2 := hm
        simp [getFluxData, hid, h1, hu1, jsonBodyOf, jsonResponse] at hm2
        exact Or.inr (Or.inr hm2.symm)
      · simp [getFluxData, hid, h1, h2, hu1, hu2, jsonBodyOf, jsonResponse, hs]

theorem route_error_bodies_no_secret_witness :
    isFalsy (some "a") = false ∧ isFalsy (some "b") = false ∧
    jsonBodyOf (getFluxData (some "x") (some "a")
        (fun _ _ => ⟨404, [], "secret leaked in vendor body"⟩)) =
      some "Failed to fetch TIFF: 404" ∧
    (("Failed to fetch TIFF: 404" = "Missing id parameter" ∨
      "Failed to fetch TIFF: 404" = "API key not configured" ∨
      "Failed to fetch TIFF: 404" = "Failed to fetch TIFF: " ++ toString
        ((fun (_ _ : String) =>
          (⟨404, [], "secret leaked in vendor body"⟩ : UpstreamResponse)) "x" "a").status) ∧
     jsonBodyOf (getFluxData (some "x") (some "a")
         (fun _ _ => ⟨404, [], "secret leaked in vendor body"⟩)) =
       jsonBodyOf (getFluxData (some "x") (some "b")
         (fun _ _ => ⟨404, [9], "different body"⟩))) :=
  ⟨by decide, by decide, by decide,
   route_error_bodies_no_secret (some "x") (some "a") (some "b")
     (fun _ _ => ⟨404, [], "secret leaked in vendor body"⟩)
     (fun _ _ => ⟨404, [9], "different body"⟩)
     "Failed to fetch TIFF: 404" (by decide) (by decide) rfl (by decide)⟩

/-- Samples failing `value > 0` leave the scan untouched: the fold over a
rational raster equals the fold over its positive samples only. -/
lemma foldl_rangeStep_filter (r : List ℚ) :
    ∀ acc : JSNum × JSNum,
      (r.map JSNum.num).foldl rangeStep acc =
        ((posSamples r).map JSNum.num).foldl rangeStep acc := by
  induction r with
  | nil => intro acc; rfl
  | cons q rest ih =>
      intro acc
      by_cases hq : (0 : ℚ) < q
      · simp only [posSamples, List.filter_cons, decide_eq_true_eq, if_pos hq, List.map_cons,
          List.foldl_cons]
        exact ih _
      · have hstep : rangeStep acc (JSNum.num q) = acc := by
          simp [rangeStep, hq]
        simp only [posSamples, List.filter_cons, decide_eq_true_eq, if_neg hq, List.map_cons,
          List.foldl_cons, hstep]
        exact ih _

lemma qmax_right_comm (a b c : ℚ) :
    Max.max (Max.max a b) c = Max.max (Max.max a c) b := by
  rw [max_assoc, max_assoc, max_comm b c]

lemma jsmin_right_comm (x a b : JSNum) :
    JSNum.jsmin (JSNum.jsmin x a) b = JSNum.jsmin (JSNum.jsmin x b) a := by
  cases x <;> cases a <;> cases b <;>
    simp only [JSNum.jsmin] <;>
    first
      | rfl
      | rw [min_right_comm]
      | rw [min_comm]

lemma jsmax_right_comm (x a b : JSNum) :
    JSNum.jsmax (JSNum.jsmax x a) b = JSNum.jsmax (JSNum.jsmax x b) a := by
  cases x <;> cases a <;> cases b <;>
    simp only [JSNum.jsmax] <;>
    first
      | rfl
      | rw [qmax_right_comm]
      | rw [max_comm]

/-- Two scan steps commute: the `value > 0` guard is unchanged by order and
the `Math.min`/`Math.max` accumulators are right-commutative. -/
lemma rangeStep_right_comm (acc : JSNum × JSNum) (a b : JSNum) :
    rangeStep (rangeStep acc a) b = rangeStep (rangeStep acc b) a := by
  by_cases ha : (JSNum.num 0).lt a = true <;>
    by_cases hb : (JSNum.num 0).lt b = true <;>
      simp [rangeStep, ha, hb, jsmin_right_comm, jsmax_right_comm]

/-- The scan is invariant under permutation of the raster. -/
lemma computeRange_perm (l1 l2 : List JSNum) (hperm : l1.Perm l2) :
    computeRange l1 = computeRange l2 := by
  have aux : ∀ acc : JSNum × JSNum, l1.foldl rangeStep acc = l2.foldl rangeStep acc := by
    induction hperm with
    | nil => intro acc; rfl
    | cons x _ ih => intro acc; simp only [List.foldl_cons]; exact ih _
    | swap x y l =>
        intro acc
        simp only [List.foldl_cons]
        rw [rangeStep_right_comm]
    | trans _ _ ih1 ih2 => intro acc; rw [ih1, ih2]
  exact aux _

/-- On a list of samples that all pass `value > 0`, the paired fold splits
into the two independent `Math.min` and `Math.max` folds. -/
lemma foldl_rangeStep_pos (l : List JSNum) (h : ∀ v ∈ l, (JSNum.num 0).lt v = true) :
    ∀ a b : JSNum,
      l.foldl rangeStep (a, b) = (l.foldl JSNum.jsmin a, l.foldl JSNum.jsmax b) := by
  induction l with
  | nil => intro a b; rfl
  | cons v rest ih =>
      intro a b
      have hv : (JSNum.num 0).lt v = true := h v (List.mem_cons_self v rest)
      simp only [List.foldl_cons, rangeStep, hv, if_true]
      exact ih (fun w hw => h w (List.mem_cons_of_mem v hw)) _ _

lemma foldl_jsmin_num (l : List ℚ) :
    ∀ a : ℚ, (l.map JSNum.num).foldl JSNum.jsmin (JSNum.num a) =
      JSNum.num (l.foldl Min.min a) := by
  induction l with
  | nil => intro a; rfl
  | cons q rest ih =>
      intro a
      simp only [List.map_cons, List.foldl_cons, JSNum.jsmin]
      exact ih _

lemma foldl_jsmax_num (l : List ℚ) :
    ∀ a : ℚ, (l.map JSNum.num).foldl JSNum.jsmax (JSNum.num a) =
      JSNum.num (l.foldl Max.max a) := by
  induction l with
  | nil => intro a; rfl
  | cons q rest ih =>
      intro a
      simp only [List.map_cons, List.foldl_cons, JSNum.jsmax]
      exact ih _

/-- C7: a finite scanned `(min, max)` is exactly the true minimum and
maximum of the positive samples (`List.min?`/`List.max?` of the `> 0`
sublist); the fold is order-independent (its step is right-commutative);
and samples `<= 0` contribute nothing to the scan. -/
theorem computeRange_is_true_min_max (r : List ℚ) (mn mx : ℚ)
    (l1 l2 : List JSNum) (hperm : l1.Perm l2)
    (h : computeRange (r.map JSNum.num) = (JSNum.num mn, JSNum.num mx)) :
    (posSamples r).min? = some mn ∧
    (posSamples r).max? = some mx ∧
    computeRange l1 = computeRange l2 ∧
    computeRange (r.map JSNum.num) = computeRange ((posSamples r).map JSNum.num) := by
  have hfilter : computeRange (r.map JSNum.num) =
      computeRange ((posSamples r).map JSNum.num) := by
    unfold computeRange
    exact foldl_rangeStep_filter r _
  have hposall : ∀ v ∈ (posSamples r).map JSNum.num, (JSNum.num 0).lt v = true := by
    intro v hv
    rcases List.mem_map.mp hv with ⟨q, hq, rfl⟩
    have : (0 : ℚ) < q := by
      have := List.of_mem_filter hq
      simpa using this
    simpa using this
  rw [hfilter] at h
  cases hp : posSamples r with
  | nil =>
      rw [hp] at h
      simp [computeRange] at h
  | cons q rest =>
      rw [hp] at h hposall
      unfold computeRange at h
      rw [foldl_rangeStep_pos _ hposall] at h
      simp only [List.map_cons, List.foldl_cons] at h
      have hmin0 : JSNum.jsmin JSNum.inf (JSNum.num q) = JSNum.num q := rfl
      have hmax0 : JSNum.jsmax JSNum.ninf (JSNum.num q) = JSNum.num q := rfl
      rw [hmin0, hmax0, foldl_jsmin_num, foldl_jsmax_num] at h
      have hmn : rest.foldl Min.min q = mn := by
        have := congrArg Prod.fst h
        simpa using this
      have hmx : rest.foldl Max.max q = mx := by
        have := congrArg Prod.snd h
        simpa using this
      refine ⟨?_, ?_, computeRange_perm l1 l2 hperm, ?_⟩
      · simp [List.min?, hmn]
      · simp [List.max?, hmx]
      · rw [hp] at hfilter
        exact hfilter

theorem computeRange_is_true_min_max_witness :
    computeRange (([1, 3, 2, -5] : List ℚ).map JSNum.num) = (JSNum.num 1, JSNum.num 3) ∧
    ((posSamples [1, 3, 2, -5]).min? = some 1 ∧
     (posSamples [1, 3, 2, -5]).max? = some 3 ∧
     computeRange [JSNum.num 2, JSNum.nan] = computeRange [JSNum.nan, JSNum.num 2] ∧
     computeRange (([1, 3, 2, -5] : List ℚ).map JSNum.num) =
       computeRange ((posSamples [1, 3, 2, -5]).map JSNum.num)) :=
  ⟨by decide,
   computeRange_is_true_min_max [1, 3, 2, -5] 1 3
     [JSNum.num 2, JSNum.nan] [JSNum.nan, JSNum.num 2]
     (List.Perm.swap JSNum.nan (JSNum.num 2) []) (by decide)⟩

/-- The spec-level ramp is warmth-monotone: the red channel is monotone and
the blue channel antitone in the sample. -/
lemma specColorMap_warmth_mono (mn mx u v : ℚ) (hlt : mn < mx) (huv : u ≤ v) :
    (specColorMap mn mx u).1 ≤ (specColorMap mn mx v).1 ∧
    (specColorMap mn mx v).2.2 ≤ (specColorMap mn mx u).2.2 := by
  have hd : (0 : ℚ) < mx - mn := sub_pos.mpr hlt
  have hmono : (u - mn) / (mx - mn) ≤ (v - mn) / (mx - mn) :=
    (div_le_div_right hd).mpr (by linarith)
  simp only [specColorMap, jsRound]
  by_cases h1 : (u - mn) / (mx - mn) < 1/2 <;>
    by_cases h2 : (v - mn) / (mx - mn) < 1/2
  · rw [if_pos h1, if_pos h2]
    exact ⟨Int.floor_le_floor (by linarith), Int.floor_le_floor (by linarith)⟩
  · rw [if_pos h1, if_neg h2]
    constructor
    · show ⌊255 * ((u - mn) / (mx - mn) * 2) + 1/2⌋ ≤ (255 : ℤ)
      have hlt256 := Int.floor_lt.mpr
        (show (255 : ℚ) * ((u - mn) / (mx - mn) * 2) + 1/2 < ((256 : ℤ) : ℚ) by
          push_cast; linarith)
      omega
    · show (0 : ℤ) ≤ ⌊255 * (1 - (u - mn) / (mx - mn) * 2) + 1/2⌋
      exact Int.le_floor.mpr (by push_cast; linarith)
  · exact absurd (lt_of_le_of_lt hmono h2) h1
  · rw [if_neg h1, if_neg h2]
    exact ⟨le_refl 255, le_refl 0⟩

/-- C10: for a proper range and positive samples `u <= v`, the red channel
computed by `getColor` at `u` is at most that at `v`, and the blue channel
at `u` is at least that at `v`. -/
theorem getColor_warmth_monotone (mn mx u v : ℚ) (hlt : mn < mx) (hu : 0 < u)
    (huv : u ≤ v) :
    redOf (getColor (JSNum.num mn) (JSNum.num mx) (JSNum.num u)) ≤
      redOf (getColor (JSNum.num mn) (JSNum.num mx) (JSNum.num v)) ∧
    blueOf (getColor (JSNum.num mn) (JSNum.num mx) (JSNum.num v)) ≤
      blueOf (getColor (JSNum.num mn) (JSNum.num mx) (JSNum.num u)) := by
  have hv : (0 : ℚ) < v := lt_of_lt_of_le hu huv
  rw [getColor_num_pos mn mx u hlt hu, getColor_num_pos mn mx v hlt hv]
  obtain ⟨hr, hb⟩ := specColorMap_warmth_mono mn mx u v hlt huv
  constructor
  · show ((specColorMap mn mx u).1 : ℚ) ≤ ((specColorMap mn mx v).1 : ℚ)
    exact_mod_cast hr
  · show ((specColorMap mn mx v).2.2 : ℚ) ≤ ((specColorMap mn mx u).2.2 : ℚ)
    exact_mod_cast hb

theorem getColor_warmth_monotone_witness :
    (1 : ℚ) < 3 ∧ (0 : ℚ) < 1 ∧ (1 : ℚ) ≤ 3 ∧
    (redOf (getColor (JSNum.num 1) (JSNum.num 3) (JSNum.num 1)) ≤
       redOf (getColor (JSNum.num 1) (JSNum.num 3) (JSNum.num 3)) ∧
     blueOf (getColor (JSNum.num 1) (JSNum.num 3) (JSNum.num 3)) ≤
       blueOf (getColor (JSNum.num 1) (JSNum.num 3) (JSNum.num 1))) :=
  ⟨by norm_num, by norm_num, by norm_num,
   getColor_warmth_monotone 1 3 1 3 (by norm_num) (by norm_num) (by norm_num)⟩
